import Mathlib

/-!
Shallow embedding of the adaptive worker-pool engine
(`workbranch.hpp`, `supervisor.hpp`, `dynbranch.hpp`) together with
theorems settling the specification claims about it.

The embedding models:
* the worker-retirement protocol of `workbranch::del_worker` /
  `workbranch::check_declining` (registry size + `pending_deletions`
  ticket counter);
* the interleaved transition system of registry mutations
  (`add_worker`, `del_worker`, ticket claims, destruction);
* the quiescence barrier `workbranch::wait_tasks`;
* the idle/busy worker counters;
* the sequence-tag submission path (`submit<sequence>` / `rexec`);
* the supervisor state (`tout`/`tval`, the branch-limits table,
  `supervise`, `suspend`, `proceed`) and one scaling control pass,
  with `size_t` arithmetic made explicit as arithmetic modulo `2^64`;
* the `dynbranch` cpu-multiple constructor's registration call.
-/

/-! ## Worker retirement: `del_worker` and the ticket counter -/

/-- Effect of one successful `check_declining` claim on the registry size:
the claiming worker erases itself from the registry
(`workbranch.hpp` lines 452-468). -/
def check_declining_claim (size : Nat) : Nat := size - 1

/-- Draining `pending` retirement tickets: each ticket is claimed by one
worker, which removes itself from the registry.  `del_worker` blocks until
the counter returns to zero, so exactly `pending` claims happen. -/
def drain_tickets : Nat → Nat → Nat
  | size, 0 => size
  | size, p + 1 => drain_tickets (check_declining_claim size) p

/-- Registry-size effect of `workbranch::del_worker(num)`
(`workbranch.hpp` lines 406-425): the guard
`if (workers.empty() || workers.size() < num) return;` rejects the call
outright when the registry is empty or holds fewer than `num` workers;
otherwise `pending_deletions += num` and the caller blocks until all
`num` tickets are claimed. -/
def del_worker (size num : Nat) : Nat :=
  if size = 0 ∨ size < num then size else drain_tickets size num

/-! ## Supervisor state: `tout`, `tval`, branch-limits table -/

/-- One entry of the supervisor's `branch_limits` vector
(`supervisor.hpp` lines 22-27).  The branch shared-pointer is modelled
by a numeric identity. -/
structure BranchLimits where
  branch : Nat
  min : Nat
  max : Nat
  idle_timeout : Nat
  deriving DecidableEq

/-- `supervisor::supervise(wbr, min, max, idle_timeout)` on the
`branch_limits` vector (`supervisor.hpp` lines 118-131): update the first
entry whose branch pointer matches, else append a new entry at the end. -/
def supervise_limits : List BranchLimits → Nat → Nat → Nat → Nat → List BranchLimits
  | [], b, mn, mx, t => [⟨b, mn, mx, t⟩]
  | e :: rest, b, mn, mx, t =>
      if e.branch = b then ⟨b, mn, mx, t⟩ :: rest
      else e :: supervise_limits rest b mn mx t

/-- Supervisor state relevant to registration and tick cadence
(`supervisor.hpp` fields `tout`, `tval`, `default_idle_timeout`,
`branch_limits`). -/
structure sup_state where
  tout : Nat
  tval : Nat
  default_idle_timeout : Nat
  branch_limits : List BranchLimits
  deriving DecidableEq

/-- The supervisor constructor (`supervisor.hpp` lines 54-64) initialises
both `tout` and `tval` to `time_interval` and stores `idle_timeout` as
`default_idle_timeout`; the branch-limits table starts empty. -/
def supervisor_ctor (idle_timeout time_interval : Nat) : sup_state :=
  { tout := time_interval
  , tval := time_interval
  , default_idle_timeout := idle_timeout
  , branch_limits := [] }

/-- `supervisor::supervise` acting on the whole supervisor state. -/
def supervise (s : sup_state) (b mn mx t : Nat) : sup_state :=
  { s with branch_limits := supervise_limits s.branch_limits b mn mx t }

/-- `supervisor::suspend(timeout)` (`supervisor.hpp` lines 162-165):
sets `tout := timeout`. -/
def suspend (s : sup_state) (timeout : Nat) : sup_state :=
  { s with tout := timeout }

/-- `supervisor::proceed()` (`supervisor.hpp` lines 170-173):
restores `tout := tval`. -/
def proceed (s : sup_state) : sup_state :=
  { s with tout := s.tval }

/-- Operations a client may perform on the supervisor's cadence state
between a `suspend` and the final `proceed`. -/
inductive sup_op where
  | susp : Nat → sup_op
  | proc : sup_op
  deriving DecidableEq

/-- Apply one cadence operation. -/
def apply_sup_op (s : sup_state) : sup_op → sup_state
  | sup_op.susp t => suspend s t
  | sup_op.proc => proceed s

/-- Run a list of cadence operations left to right. -/
def run_sup_ops (s : sup_state) (ops : List sup_op) : sup_state :=
  ops.foldl apply_sup_op s

/-- The registration the `dynbranch` cpu-multiple constructor performs
(`dynbranch.hpp` lines 53-60): it builds a supervisor from
`(idle_timeout, time_interval)` and then calls
`supervise(branch, cpu_multiple_tag, min_mult, max_mult, time_interval)`,
i.e. it passes `time_interval` — not `idle_timeout` — as the
idle-worker-detection timeout of the registered branch.  The branch is
identified as `0` and the cpu-derived limits `min_w`/`max_w` stand for
`ceil(cores*min_mult)` / `ceil(cores*max_mult)`. -/
def dynbranch_cpu_ctor (min_w max_w idle_timeout time_interval : Nat) : sup_state :=
  supervise (supervisor_ctor idle_timeout time_interval) 0 min_w max_w time_interval

/-! ## Supervisor control pass (`supervisor::mission`, one branch) -/

/-- Width of `size_t` on the target platform. -/
def size_t_mod : Nat := 2 ^ 64

/-- `size_t` subtraction `a - b` as performed by the C++ control pass:
arithmetic modulo `2^64`, wrapping around on underflow. -/
def sub64 (a b : Nat) : Nat := (a + size_t_mod - b) % size_t_mod

/-- The scaling decision a control pass takes for one branch. -/
inductive pass_action where
  | del_w : Nat → pass_action
  | add_w : Nat → pass_action
  | skip : pass_action
  deriving DecidableEq

/-- One control pass over a registered branch (`supervisor.hpp` lines
191-214), with `wknums = num_workers()`, `tknums = num_tasks()`, limits
`(wmin, wmax)` and `idle_count = count_idle_workers(idle_timeout)`:
if `wknums > wmax` delete the excess; else if `tknums != 0` call
`add_worker(min(wmax - wknums, tknums - wknums))` in `size_t`
arithmetic; else if `wknums > wmin` and `idle_count > wmin` delete
`idle_count - wmin`. -/
def control_pass (wknums tknums wmin wmax idle_count : Nat) : pass_action :=
  if wmax < wknums then pass_action.del_w (sub64 wknums wmax)
  else if tknums ≠ 0 then
    pass_action.add_w (min (sub64 wmax wknums) (sub64 tknums wknums))
  else if wmin < wknums ∧ wmin < idle_count then
    pass_action.del_w (sub64 idle_count wmin)
  else pass_action.skip

/-! ## Sequence-tag submission (`submit<sequence>` / `rexec`) -/

/-- A user callable of a sequence group, abstracted to a label (to record
that and when it ran) and whether its body throws. -/
abbrev seq_callable := Nat × Bool

/-- `workbranch::rexec(f, fs...)` (`workbranch.hpp` lines 515-526):
invoke the callables one after the other; an exception thrown by one of
them propagates out of `rexec` immediately, so the remaining callables
are not invoked.  Returns the labels actually executed, in execution
order, and whether the chain completed without throwing. -/
def rexec : List seq_callable → List Nat × Bool
  | [] => ([], true)
  | c :: rest =>
      if c.2 then ([c.1], false)
      else (c.1 :: (rexec rest).1, (rexec rest).2)

/-- The composite task built by `submit<sequence>` (`workbranch.hpp`
lines 282-299): a single `try { rexec(task, tasks...) } catch (...)`
around the whole chain.  The catch swallows the exception, so the task
itself completes; the labels executed are those `rexec` reached. -/
def seq_task_exec (cs : List seq_callable) : List Nat := (rexec cs).1

/-- Effect of `submit<sequence>` on the task queue: `tq.push_back` of
exactly one composite task (modelled by its execution trace). -/
def submit_sequence (q : List (List Nat)) (cs : List seq_callable) : List (List Nat) :=
  q ++ [seq_task_exec cs]

/-- Spec-side characterisation of which callables of a sequence group
run: the longest throw-free prefix runs, then the first throwing
callable (if any) runs and aborts the rest. -/
def expected_seq_exec (cs : List seq_callable) : List Nat :=
  match cs.dropWhile (fun d => !d.2) with
  | [] => cs.map Prod.fst
  | c :: _ => (cs.takeWhile (fun d => !d.2)).map Prod.fst ++ [c.1]

/-! ## Quiescence barrier (`workbranch::wait_tasks`) -/

/-- The branch state `wait_tasks` reads and writes: the `destructing`
and `waiting` flags and the `idle_workers` / `resumed_workers`
counters. -/
structure wb_state where
  destructing : Bool
  waiting : Bool
  idle_workers : Nat
  resumed_workers : Nat
  deriving DecidableEq

/-- Environment of one `wait_tasks` call: `parked` is the value of
`idle_workers` when the timed wait on `task_idle_cv` returns (the
workers that reached the barrier within the timeout), and
`registry_size` is `workers.size()` at that moment. -/
structure wait_env where
  parked : Nat
  registry_size : Nat
  deriving DecidableEq

/-- The observable steps `wait_tasks` performs, in program order
(`workbranch.hpp` lines 155-184). -/
inductive wt_action where
  | zero_idle
  | set_waiting
  | notify_all_blocked
  | timed_wait_idle
  | clear_waiting
  | notify_resume_all
  | wait_resume_ack
  | zero_resumed
  deriving DecidableEq

/-- The full release trace of a `wait_tasks` call that engaged the
barrier. -/
def wt_full_trace : List wt_action :=
  [wt_action.zero_idle, wt_action.set_waiting, wt_action.notify_all_blocked,
   wt_action.timed_wait_idle, wt_action.clear_waiting, wt_action.notify_resume_all,
   wt_action.wait_resume_ack, wt_action.zero_resumed]

/-- `workbranch::wait_tasks(timeout)` (`workbranch.hpp` lines 155-184):
if `destructing` is set, return `false` at once, touching nothing.
Otherwise zero `idle_workers`, set `waiting`, wake blocked workers, do
the timed wait for `idle_workers >= workers.size()` (its result is the
return value), then unconditionally clear `waiting`, wake everyone,
wait for `resumed_workers >= idle_workers` and zero `resumed_workers`.
Returns the result, the final state and the action trace. -/
def wait_tasks (st : wb_state) (env : wait_env) : Bool × wb_state × List wt_action :=
  if st.destructing then (false, st, [])
  else
    (decide (env.registry_size ≤ env.parked),
      { destructing := st.destructing
      , waiting := false
      , idle_workers := env.parked
      , resumed_workers := 0 },
      wt_full_trace)

/-! ## Worker registry counters -/

/-- A registry entry (`workbranch::worker_info`): the `busy` flag and
the `last_active_time` timestamp (monotonic clock, updated on the
busy-to-idle transition). -/
structure worker_info where
  busy : Bool
  last_active_time : Int

/-- `worker_info::is_idle()`. -/
def worker_is_idle (w : worker_info) : Bool := !w.busy

/-- `workbranch::num_workers()`: the registry size. -/
def num_workers (ws : List worker_info) : Nat := ws.length

/-- `workbranch::count_idle_workers(timeout)` (`workbranch.hpp` lines
204-217): the number of registry entries that are idle and whose idle
age `now - last_active_time` is at least `timeout`. -/
def count_idle_workers (ws : List worker_info) (now timeout : Int) : Nat :=
  (ws.filter (fun w => worker_is_idle w && decide (timeout ≤ now - w.last_active_time))).length

/-- `workbranch::count_busy_workers()` (`workbranch.hpp` lines
219-229): the number of registry entries that are not idle. -/
def count_busy_workers (ws : List worker_info) : Nat :=
  (ws.filter (fun w => !(worker_is_idle w))).length

/-! ## Interleaved registry/retirement transition system -/

/-- Destruction phase of a branch: `running` before the destructor
starts, `draining` while the destructor waits for `pending_deletions`
to reach zero, `finished` after it returns. -/
inductive dphase where
  | running
  | draining
  | finished
  deriving DecidableEq

/-- Global system state for the retirement protocol: registry size, the
`pending_deletions` ticket counter, the number of `del_worker` calls
currently blocked inside the branch, and the destruction phase. -/
structure sys_state where
  size : Nat
  pending_deletions : Nat
  dels_in_flight : Nat
  phase : dphase
  deriving DecidableEq

/-- One atomic step of any thread interacting with the registry:
`add_worker`, the two outcomes of `del_worker`'s guard, a worker
claiming a retirement ticket in `check_declining`, a blocked
`del_worker` returning once the counter is zero, and the destructor
setting `pending_deletions = workers.size()` and later returning. -/
inductive sys_step : sys_state → sys_state → Prop where
  | add_worker (s : sys_state) :
      sys_step s { s with size := s.size + 1 }
  | del_worker_noop (s : sys_state) (n : Nat) (h : s.size = 0 ∨ s.size < n) :
      sys_step s s
  | del_worker_begin (s : sys_state) (n : Nat) (h1 : 1 ≤ n)
      (h2 : ¬ (s.size = 0 ∨ s.size < n)) :
      sys_step s { s with pending_deletions := s.pending_deletions + n
                        , dels_in_flight := s.dels_in_flight + 1 }
  | claim_ticket (s : sys_state) (h1 : 0 < s.pending_deletions) (h2 : 0 < s.size) :
      sys_step s { s with pending_deletions := s.pending_deletions - 1
                        , size := s.size - 1 }
  | del_worker_end (s : sys_state) (h1 : 0 < s.dels_in_flight)
      (h2 : s.pending_deletions = 0) :
      sys_step s { s with dels_in_flight := s.dels_in_flight - 1 }
  | destruct_begin (s : sys_state) (h : s.phase = dphase.running) :
      sys_step s { s with pending_deletions := s.size, phase := dphase.draining }
  | destruct_end (s : sys_state) (h1 : s.phase = dphase.draining)
      (h2 : s.pending_deletions = 0) :
      sys_step s { s with phase := dphase.finished }

/-- Reachability by any interleaving of steps. -/
inductive sys_reach : sys_state → sys_state → Prop where
  | refl (s : sys_state) : sys_reach s s
  | tail {a b c : sys_state} : sys_reach a b → sys_step b c → sys_reach a c

/-- A state is between public operations when no `del_worker` call is
in flight and the destructor is not mid-drain. -/
def quiescent (s : sys_state) : Prop :=
  s.dels_in_flight = 0 ∧ s.phase ≠ dphase.draining

/-- The branch constructor spawns `n` workers with no pending
deletions. -/
def wb_init (n : Nat) : sys_state :=
  { size := n, pending_deletions := 0, dels_in_flight := 0, phase := dphase.running }

/-! ## Helper lemmas on the deletion and supervisor models -/

/-- Inductive invariant of the retirement system: whenever no deletion
operation is in flight and the destructor is not draining, the ticket
counter is zero. -/
theorem sys_step_inv {s s' : sys_state}
    (hinv : s.dels_in_flight = 0 ∧ s.phase ≠ dphase.draining → s.pending_deletions = 0)
    (hstep : sys_step s s') :
    s'.dels_in_flight = 0 ∧ s'.phase ≠ dphase.draining → s'.pending_deletions = 0 := by
  cases hstep with
  | add_worker => exact hinv
  | del_worker_noop n h => exact hinv
  | del_worker_begin n h1 h2 =>
      intro h
      simp at h
  | claim_ticket h1 h2 =>
      intro h
      simp only at h
      have := hinv h
      omega
  | del_worker_end h1 h2 =>
      intro h
      exact h2
  | destruct_begin h =>
      intro hq
      simp at hq
  | destruct_end h1 h2 =>
      intro h
      exact h2

/-- The invariant holds in every reachable state. -/
theorem sys_reach_inv {s0 s : sys_state}
    (hinv : s0.dels_in_flight = 0 ∧ s0.phase ≠ dphase.draining → s0.pending_deletions = 0)
    (hreach : sys_reach s0 s) :
    s.dels_in_flight = 0 ∧ s.phase ≠ dphase.draining → s.pending_deletions = 0 := by
  induction hreach with
  | refl => exact hinv
  | tail hr hstep ih => exact sys_step_inv ih hstep

/-- `size_t` subtraction without underflow is plain subtraction. -/
theorem sub64_of_le {a b : Nat} (h : b ≤ a) (ha : a < size_t_mod) :
    sub64 a b = a - b := by
  unfold sub64
  have h1 : a + size_t_mod - b = (a - b) + size_t_mod := by omega
  rw [h1, Nat.add_mod_right]
  exact Nat.mod_eq_of_lt (by omega)

/-- `size_t` subtraction with underflow wraps around. -/
theorem sub64_of_lt {a b : Nat} (h : a < b) (hb : b ≤ size_t_mod) :
    sub64 a b = size_t_mod - (b - a) := by
  unfold sub64
  have h1 : a + size_t_mod - b = size_t_mod - (b - a) := by omega
  rw [h1]
  exact Nat.mod_eq_of_lt (by omega)

/-- Draining `p` tickets removes exactly `p` workers. -/
theorem drain_tickets_eq (p : Nat) : ∀ size, drain_tickets size p = size - p := by
  induction p with
  | zero => intro size; rfl
  | succ n ih =>
      intro size
      simp only [drain_tickets, check_declining_claim, ih]
      omega

/-- `supervise_limits` twice on the same branch equals once with the
final arguments. -/
theorem supervise_limits_idem (L : List BranchLimits) (b a1 b1 d1 a2 b2 d2 : Nat) :
    supervise_limits (supervise_limits L b a1 b1 d1) b a2 b2 d2 =
      supervise_limits L b a2 b2 d2 := by
  induction L with
  | nil => simp [supervise_limits]
  | cons e rest ih =>
      by_cases h : e.branch = b
      · simp [supervise_limits, h]
      · simp [supervise_limits, h, ih]

/-- Cadence operations never change `tval`. -/
theorem run_sup_ops_tval (ops : List sup_op) :
    ∀ s : sup_state, (run_sup_ops s ops).tval = s.tval := by
  induction ops with
  | nil => intro s; rfl
  | cons op rest ih =>
      intro s
      cases op with
      | susp t => simpa [run_sup_ops, apply_sup_op, suspend] using ih (suspend s t)
      | proc => simpa [run_sup_ops, apply_sup_op, proceed] using ih (proceed s)

/-! ## Claim theorems (first group) -/

/-- Claim C1, counterexample: on a branch with one registered worker,
`del_worker(2)` retires nobody — the decrease is `0`, not
`min 2 1 = 1` as the claim states. -/
theorem C1_del_worker_cex : ¬ (1 - del_worker 1 2 = min 2 1) := by decide

/-- Claim C1, amended: for every `n ≥ 1`, `del_worker(n)` on a registry of
size `s` retires exactly `n` workers when `n ≤ s`, and is a silent no-op
(retires none) when `n > s`; it never caps `n` at `s`. -/
theorem C1_del_worker_amended (s n : Nat) (h : 1 ≤ n) :
    del_worker s n = (if n ≤ s then s - n else s) ∧
      s - del_worker s n = (if n ≤ s then n else 0) := by
  unfold del_worker
  by_cases hle : n ≤ s
  · have hs : ¬ (s = 0 ∨ s < n) := by omega
    simp [hs, hle, drain_tickets_eq]
    omega
  · have hs : s = 0 ∨ s < n := by omega
    simp [hs, hle]

/-- Witness for C1: a branch with 5 workers, `del_worker(2)` leaves 3. -/
theorem C1_del_worker_amended_witness :
    (1 ≤ 2) ∧ (del_worker 5 2 = (if 2 ≤ 5 then 5 - 2 else 5) ∧
      5 - del_worker 5 2 = (if 2 ≤ 5 then 2 else 0)) :=
  ⟨by decide, C1_del_worker_amended 5 2 (by decide)⟩

/-- Claim C6: re-registering an already-registered branch updates its
limits in place; two `supervise` calls for the same branch leave the
registration table exactly as the single second call would. -/
theorem C6_supervise_idempotent (s : sup_state) (b a1 b1 d1 a2 b2 d2 : Nat) :
    supervise (supervise s b a1 b1 d1) b a2 b2 d2 = supervise s b a2 b2 d2 := by
  simp [supervise, supervise_limits_idem]

/-- Claim C9: after any sequence of `suspend`/`proceed` calls, a final
`proceed()` restores the effective tick gate `tout` to the
`time_interval` configured at construction. -/
theorem C9_suspend_proceed (idle_timeout time_interval : Nat) (ops : List sup_op) :
    (proceed (run_sup_ops (supervisor_ctor idle_timeout time_interval) ops)).tout =
      time_interval := by
  simp [proceed, run_sup_ops_tval, supervisor_ctor]

/-- Claim C5: the cpu-multiple `dynbranch` constructor registers its
branch with the supervisor using `time_interval` as the
idle-worker-detection timeout, not the constructor's `idle_timeout`
argument.  At the default arguments (`idle_timeout = 5000`,
`time_interval = 1000`) the registered timeout is `1000 ≠ 5000`. -/
theorem C5_dynbranch_idle_timeout_bug :
    ((dynbranch_cpu_ctor 1 2 5000 1000).branch_limits.map BranchLimits.idle_timeout
        = [1000]) ∧ (1000 : Nat) ≠ 5000 := by decide

/-- Claim C2, counterexample: with `workers = 2 ≤ max = 4` and
`tasks = 1 > 0` (so `tasks ≤ workers`), the pass does not add zero
workers: the `size_t` difference `tasks - workers` wraps around and the
pass issues `add_worker(2)`. -/
theorem C2_scale_up_cex :
    control_pass 2 1 0 4 0 ≠ pass_action.add_w 0 ∧
      control_pass 2 1 0 4 0 = pass_action.add_w 2 := by
  constructor
  · intro h
    simp only [control_pass, sub64, size_t_mod] at h
    norm_num at h
  · simp only [control_pass, sub64, size_t_mod]
    norm_num

/-- Claim C2, amended: when `workers ≤ max` and `tasks > 0` the pass
calls `add_worker(min(max - workers, tasks - workers))` computed in
`size_t` (mod `2^64`) arithmetic: when `tasks ≥ workers` this is the
exact-integer `min(max - workers, tasks - workers)`, but when
`tasks < workers` the wrapped difference makes it `max - workers`
(adding workers even though demand is below the current count).  In
both cases the pass never raises the worker count above `max`. -/
theorem C2_scale_up_amended (w t wmin wmax ic : Nat)
    (hw : w ≤ wmax) (hmax : wmax < size_t_mod) (ht : 0 < t) (ht2 : t < size_t_mod) :
    control_pass w t wmin wmax ic =
        pass_action.add_w (if w ≤ t then min (wmax - w) (t - w) else wmax - w) ∧
      (∀ k, control_pass w t wmin wmax ic = pass_action.add_w k → w + k ≤ wmax) := by
  have hnotdel : ¬ wmax < w := by omega
  have hmaxw : sub64 wmax w = wmax - w := sub64_of_le hw hmax
  have htne : t ≠ 0 := by omega
  have hmain : control_pass w t wmin wmax ic =
      pass_action.add_w (if w ≤ t then min (wmax - w) (t - w) else wmax - w) := by
    by_cases hwt : w ≤ t
    · have h1 : sub64 t w = t - w := sub64_of_le hwt ht2
      simp [control_pass, hnotdel, htne, hmaxw, h1, hwt]
    · have hlt : t < w := by omega
      have h1 : sub64 t w = size_t_mod - (w - t) := sub64_of_lt hlt (by omega)
      have h2 : min (wmax - w) (size_t_mod - (w - t)) = wmax - w := by
        apply Nat.min_eq_left
        omega
      simp [control_pass, hnotdel, htne, hmaxw, h1, h2, hwt]
  refine ⟨hmain, ?_⟩
  intro k hk
  rw [hmain] at hk
  have hk2 : k = (if w ≤ t then min (wmax - w) (t - w) else wmax - w) := by
    cases hk
    rfl
  by_cases hwt : w ≤ t
  · simp only [hwt, if_pos] at hk2
    omega
  · simp only [hwt, if_neg, ite_false] at hk2
    omega

/-- Witness for C2: `workers = 2`, `tasks = 5`, `max = 4`: the pass adds
`min(4-2, 5-2) = 2` workers and `2 + 2 ≤ 4`. -/
theorem C2_scale_up_amended_witness :
    ((2 : Nat) ≤ 4 ∧ (4 : Nat) < size_t_mod ∧ (0 : Nat) < 5 ∧ (5 : Nat) < size_t_mod) ∧
      (control_pass 2 5 0 4 0 =
          pass_action.add_w (if 2 ≤ 5 then min (4 - 2) (5 - 2) else 4 - 2) ∧
        (∀ k, control_pass 2 5 0 4 0 = pass_action.add_w k → 2 + k ≤ 4)) :=
  ⟨⟨by decide, by decide, by decide, by decide⟩,
    C2_scale_up_amended 2 5 0 4 0 (by decide) (by decide) (by decide) (by decide)⟩

/-- Claim C3, counterexample: a sequence of two callables whose first
throws executes only the first callable — the remaining callable does
not run, because the single try/catch wraps the whole `rexec` chain
rather than each callable. -/
theorem C3_sequence_cex :
    seq_task_exec [(0, true), (1, false)] = [0] ∧
      seq_task_exec [(0, true), (1, false)] ≠ [0, 1] := by decide

/-- Claim C3, amended: `submit<sequence>(f1, ..., fn)` enqueues exactly
one composite task that invokes the callables sequentially on a single
worker in submitted order, all inside a single try/catch scope: if no
callable throws they all execute in order, and an exception thrown by
one callable is caught at task scope but aborts the remaining callables
of the sequence. -/
theorem C3_sequence_amended (q : List (List Nat)) (cs : List seq_callable) :
    submit_sequence q cs = q ++ [seq_task_exec cs] ∧
      (submit_sequence q cs).length = q.length + 1 ∧
      seq_task_exec cs = expected_seq_exec cs := by
  refine ⟨rfl, by simp [submit_sequence], ?_⟩
  induction cs with
  | nil => rfl
  | cons c rest ih =>
      by_cases hc : c.2
      · simp [seq_task_exec, rexec, expected_seq_exec, hc, List.dropWhile, List.takeWhile]
      · simp only [seq_task_exec, rexec, hc, if_false, Bool.not_eq_true] at ih ⊢
        simp only [expected_seq_exec, List.dropWhile, List.takeWhile, hc,
          Bool.not_false, if_true] at ih ⊢
        cases hdrop : List.dropWhile (fun d => !d.2) rest with
        | nil =>
            rw [hdrop] at ih
            simp [ih, hdrop]
        | cons d ds =>
            rw [hdrop] at ih
            simp [ih, hdrop]

/-- Claim C4: on a branch that is not destructing, `wait_tasks` returns
true iff the parked-worker count reached the registry size before the
timed wait gave up, and — timeout or not — it performs the full release
phase (clearing `waiting`, waking all parked workers, waiting for the
resume acknowledgements and zeroing `resumed_workers`) before
returning. -/
theorem C4_wait_tasks_release (st : wb_state) (env : wait_env)
    (h : st.destructing = false) :
    ((wait_tasks st env).1 = true ↔ env.registry_size ≤ env.parked) ∧
      (wait_tasks st env).2.2 = wt_full_trace ∧
      ((wait_tasks st env).2.1).waiting = false ∧
      ((wait_tasks st env).2.1).resumed_workers = 0 := by
  simp [wait_tasks, h]

/-- Witness for C4: one worker, none parked before timeout — the call
returns false yet still emits the whole release trace and leaves
`waiting = false`, `resumed_workers = 0`. -/
theorem C4_wait_tasks_release_witness :
    ((⟨false, false, 0, 0⟩ : wb_state).destructing = false) ∧
      (((wait_tasks ⟨false, false, 0, 0⟩ ⟨0, 1⟩).1 = true ↔ (1 : Nat) ≤ 0) ∧
        (wait_tasks ⟨false, false, 0, 0⟩ ⟨0, 1⟩).2.2 = wt_full_trace ∧
        ((wait_tasks ⟨false, false, 0, 0⟩ ⟨0, 1⟩).2.1).waiting = false ∧
        ((wait_tasks ⟨false, false, 0, 0⟩ ⟨0, 1⟩).2.1).resumed_workers = 0) :=
  ⟨rfl, C4_wait_tasks_release ⟨false, false, 0, 0⟩ ⟨0, 1⟩ rfl⟩

/-- Claim C8: if `destructing` is already set, `wait_tasks` returns
false immediately, leaves the state untouched and performs none of the
barrier actions. -/
theorem C8_wait_tasks_destructing (st : wb_state) (env : wait_env)
    (h : st.destructing = true) :
    wait_tasks st env = (false, st, []) := by
  simp [wait_tasks, h]

/-- Witness for C8: a destructing branch with parked and resumed
counters in arbitrary positions returns false with nothing changed. -/
theorem C8_wait_tasks_destructing_witness :
    ((⟨true, true, 3, 2⟩ : wb_state).destructing = true) ∧
      wait_tasks ⟨true, true, 3, 2⟩ ⟨5, 1⟩ = (false, ⟨true, true, 3, 2⟩, []) :=
  ⟨rfl, C8_wait_tasks_destructing ⟨true, true, 3, 2⟩ ⟨5, 1⟩ rfl⟩

/-- Claim C7: in every state reachable from branch construction by any
interleaving of `add_worker`, `del_worker`, ticket claims and
destruction, whenever the system is between public operations (no
`del_worker` in flight, destructor not draining) the invariant
`pending_deletions ≤ registry.size()` holds. -/
theorem C7_pending_le_size (n : Nat) (s : sys_state)
    (hreach : sys_reach (wb_init n) s) (hq : quiescent s) :
    s.pending_deletions ≤ s.size := by
  have h0 : (wb_init n).dels_in_flight = 0 ∧ (wb_init n).phase ≠ dphase.draining →
      (wb_init n).pending_deletions = 0 := by
    intro h
    rfl
  have := sys_reach_inv h0 hreach hq
  omega

/-- Witness for C7: the freshly constructed three-worker branch is
quiescent and satisfies the invariant. -/
theorem C7_pending_le_size_witness :
    sys_reach (wb_init 3) (wb_init 3) ∧ quiescent (wb_init 3) ∧
      (wb_init 3).pending_deletions ≤ (wb_init 3).size :=
  ⟨sys_reach.refl (wb_init 3), ⟨rfl, by simp [wb_init]⟩,
    C7_pending_le_size 3 (wb_init 3) (sys_reach.refl (wb_init 3))
      ⟨rfl, by simp [wb_init]⟩⟩

/-- Claim C10: at a fixed branch state whose timestamps do not lie in
the future, each registered worker is counted exactly once — either by
`count_idle_workers(0)` (any idle worker passes the zero idle-age
threshold) or by `count_busy_workers()` — so the two counts sum to
`num_workers()`. -/
theorem C10_counters_partition (ws : List worker_info) (now : Int)
    (h : ∀ w ∈ ws, w.last_active_time ≤ now) :
    count_idle_workers ws now 0 + count_busy_workers ws = num_workers ws := by
  induction ws with
  | nil => rfl
  | cons w rest ih =>
      have hw : w.last_active_time ≤ now := h w (List.mem_cons_self w rest)
      have hrest := ih (fun v hv => h v (List.mem_cons_of_mem w hv))
      have hage : (0 : Int) ≤ now - w.last_active_time := by omega
      cases hb : w.busy with
      | true =>
          have h1 : (worker_is_idle w && decide ((0 : Int) ≤ now - w.last_active_time))
              = false := by simp [worker_is_idle, hb]
          have h2 : (!(worker_is_idle w)) = true := by simp [worker_is_idle, hb]
          simp only [count_idle_workers, count_busy_workers, num_workers,
            List.filter_cons, h1, h2, if_true, if_false, Bool.false_eq_true,
            List.length_cons] at hrest ⊢
          omega
      | false =>
          have h1 : (worker_is_idle w && decide ((0 : Int) ≤ now - w.last_active_time))
              = true := by simp [worker_is_idle, hb, hage]
          have h2 : (!(worker_is_idle w)) = false := by simp [worker_is_idle, hb]
          simp only [count_idle_workers, count_busy_workers, num_workers,
            List.filter_cons, h1, h2, if_true, if_false, Bool.false_eq_true,
            List.length_cons] at hrest ⊢
          omega

/-- Witness for C10: a two-worker registry, one busy and one idle, at
time 5, counts 1 idle + 1 busy = 2 workers. -/
theorem C10_counters_partition_witness :
    (∀ w ∈ [(⟨true, 0⟩ : worker_info), ⟨false, 1⟩], w.last_active_time ≤ (5 : Int)) ∧
      count_idle_workers [(⟨true, 0⟩ : worker_info), ⟨false, 1⟩] 5 0 +
          count_busy_workers [(⟨true, 0⟩ : worker_info), ⟨false, 1⟩] =
        num_workers [(⟨true, 0⟩ : worker_info), ⟨false, 1⟩] :=
  ⟨by decide, C10_counters_partition [⟨true, 0⟩, ⟨false, 1⟩] 5 (by decide)⟩
